import Mathlib

/-!
Shallow embedding of the `allo_aide` Django view layer
(`myapp/allo_aide/views.py`): a community-help marketplace with skills,
help requests, time slots and reservations.

The data store is modelled as an explicit `DB` record of lists of rows;
each Django view becomes a Lean function from its request inputs and the
current `DB` to a `Response` together with the successor `DB`.  The
authenticated principal is passed explicitly as an `Option Nat`
(`none` = anonymous), matching the per-request `request.user`.
Framework-supplied collaborators (credential checking, form field
validation, session storage) are outside the repository; they are
modelled as request inputs per the specification.
-/

namespace AlloAide

/-- Calendar date as produced by `datetime.datetime.strptime(date, '%Y-%m-%d').date()`. -/
structure PyDate where
  year : Nat
  month : Nat
  day : Nat
deriving DecidableEq, Repr

/-- Gregorian leap-year rule used by Python `datetime` for day-of-month validation. -/
def isLeapYear (y : Nat) : Bool :=
  (y % 4 == 0 && y % 100 != 0) || (y % 400 == 0)

/-- Number of days in a month, as validated by the `datetime.date` constructor. -/
def daysInMonth (y m : Nat) : Nat :=
  if m == 2 then (if isLeapYear y then 29 else 28)
  else if m == 4 || m == 6 || m == 9 || m == 11 then 30
  else 31

/-- Numeric value of a decimal digit character. -/
def digitVal (c : Char) : Nat := c.toNat - 48

/-- Month field of `%Y-%m-%d` as matched by CPython `_strptime`
(regex `1[0-2]|0[1-9]|[1-9]`): two digits forming 01..12, else one digit 1..9.
Returns the month and the unconsumed characters. -/
def parseMonth : List Char → Option (Nat × List Char)
  | c1 :: c2 :: rest =>
    if c1.isDigit && c2.isDigit then
      let v := digitVal c1 * 10 + digitVal c2
      if 1 ≤ v && v ≤ 12 then some (v, rest) else none
    else if c1.isDigit && 1 ≤ digitVal c1 then some (digitVal c1, c2 :: rest)
    else none
  | [c1] =>
    if c1.isDigit && 1 ≤ digitVal c1 then some (digitVal c1, []) else none
  | [] => none

/-- Day field of `%Y-%m-%d` as matched by CPython `_strptime`
(regex `3[01]|[12]\d|0[1-9]|[1-9]`): two digits forming 01..31, else one digit 1..9. -/
def parseDay : List Char → Option (Nat × List Char)
  | c1 :: c2 :: rest =>
    if c1.isDigit && c2.isDigit then
      let v := digitVal c1 * 10 + digitVal c2
      if 1 ≤ v && v ≤ 31 then some (v, rest) else none
    else if c1.isDigit && 1 ≤ digitVal c1 then some (digitVal c1, c2 :: rest)
    else none
  | [c1] =>
    if c1.isDigit && 1 ≤ digitVal c1 then some (digitVal c1, []) else none
  | [] => none

/-- Suffix `%m-%d` of the format: month, literal dash, day, end of input. -/
def parseMonthDashDay (cs : List Char) : Option (Nat × Nat) :=
  match parseMonth cs with
  | none => none
  | some (m, cs1) =>
    match cs1 with
    | '-' :: cs2 =>
      match parseDay cs2 with
      | none => none
      | some (d, cs3) => if cs3.isEmpty then some (m, d) else none
    | _ => none

/-- Model of `datetime.datetime.strptime(s, '%Y-%m-%d').date()`:
exactly four digits of year, dash, month, dash, day, whole string consumed;
the `date` constructor then requires year ≥ 1 and a day valid for the month.
Returns `none` exactly when the Python call raises `ValueError`. -/
def strptimeYMD (s : String) : Option PyDate :=
  match s.toList with
  | c1 :: c2 :: c3 :: c4 :: '-' :: rest =>
    if c1.isDigit && c2.isDigit && c3.isDigit && c4.isDigit then
      let y := ((digitVal c1 * 10 + digitVal c2) * 10 + digitVal c3) * 10 + digitVal c4
      match parseMonthDashDay rest with
      | some (m, d) =>
        if 1 ≤ y && 1 ≤ d && d ≤ daysInMonth y m then some ⟨y, m, d⟩ else none
      | none => none
    else none
  | _ => none

/-- Skill row: `{ id, user (owner), name }` per the data model. -/
structure Skill where
  id : Nat
  user : Option Nat
  name : String
deriving DecidableEq, Repr

/-- HelpRequest row: `{ id, user (optional), description }` per the data model. -/
structure HelpRequest where
  id : Nat
  user : Option Nat
  description : String
deriving DecidableEq, Repr

/-- TimeSlot row: `{ id, user (proposer), skill (FK), date, is_available }`. -/
structure TimeSlot where
  id : Nat
  user : Option Nat
  skill : Nat
  date : PyDate
  is_available : Bool
deriving DecidableEq, Repr

/-- Reservation row: `{ id, time_slot (FK), user (reserver) }`.
`created_available` is a ghost/history field recording the value of the
referenced TimeSlot.is_available at the moment the row was created; it is
needed only to state the creation-time invariant. -/
structure Reservation where
  id : Nat
  time_slot : Nat
  user : Option Nat
  created_available : Bool
deriving DecidableEq, Repr

/-- The relational store: one list of rows per entity plus a fresh primary-key
counter shared across tables (freshness is all that matters). -/
structure DB where
  skills : List Skill
  help_requests : List HelpRequest
  time_slots : List TimeSlot
  reservations : List Reservation
  next_id : Nat
deriving DecidableEq, Repr

/-- Validated field set of `SkillForm`.  Modelled from the spec: `forms.py`
is not in the source tree; per §4.5 the form validates the Skill schema
excluding the owner.  `claimed_user` stands for any owner value a client
may smuggle into the POST body; the view must ignore it. -/
structure SkillFormData where
  name : String
  claimed_user : Option Nat
deriving DecidableEq, Repr

/-- Validated field set of `HelpRequestForm`.  Modelled from the spec:
`forms.py` is not in the source tree; per §4.6 the record is saved exactly
as submitted, including its (optional) user. -/
structure HelpRequestFormData where
  user : Option Nat
  description : String
deriving DecidableEq, Repr

/-- Validated field set of `TimeSlotForm`.  Modelled from the spec:
`forms.py` is not in the source tree; per §4.7 the record is saved as
submitted (owner included, no server-side binding) and per §3 a TimeSlot
is created in state `is_available = true`. -/
structure TimeSlotFormData where
  user : Option Nat
  skill : Nat
  date : PyDate
deriving DecidableEq, Repr

/-- Responses a view can produce; `render` calls are split per template with
their context mapping made explicit, `redirectToLogin` is what the
`@login_required` decorator returns for an anonymous request. -/
inductive Response where
  | renderHome (skills : List Skill) (timeslots : List TimeSlot)
  | renderHomeUser (skills : List Skill) (help_requests : List HelpRequest)
      (time_slots : List TimeSlot)
  | renderLogin (bound : Bool)
  | renderSkillForm (bound : Bool)
  | renderRequestForm (bound : Bool)
  | renderPropositionForm (bound : Bool)
  | renderFindSlots (available_slots : List TimeSlot) (skill : Skill)
      (date : Option PyDate) (error_message : Option String)
  | renderError (message : String)
  | renderHistory (reservations : List (Reservation × Option TimeSlot × Option Skill))
  | redirect (target : String)
  | notFound
  | redirectToLogin
deriving DecidableEq, Repr

/-- View `home(request)`: all skills and the time slots with
`is_available=True`; read-only. -/
def home (db : DB) : Response × DB :=
  (Response.renderHome db.skills (db.time_slots.filter (fun t => t.is_available)), db)

/-- View `home_user(request)`: the current user's skills, help requests and
time slots; read-only. -/
def home_user (user : Option Nat) (db : DB) : Response × DB :=
  (Response.renderHomeUser
    (db.skills.filter (fun s => s.user == user))
    (db.help_requests.filter (fun h => h.user == user))
    (db.time_slots.filter (fun t => t.user == user)), db)

/-- View `login_view(request)`: on POST with a valid `AuthenticationForm` and a
successful `authenticate`, log in and redirect to `home_user`; otherwise
re-render the login form.  Credential checking is a framework collaborator,
so its outcome is passed in as `auth_result`; the session principal is
threaded through explicitly. -/
def login_view (sess : Option Nat) (method : String)
    (creds : Option (String × String)) (auth_result : Option Nat)
    (db : DB) : Response × Option Nat × DB :=
  if method == "POST" then
    match creds with
    | some _ =>
      match auth_result with
      | some uid => (Response.redirect "allo_aide:home_user", some uid, db)
      | none => (Response.renderLogin true, sess, db)
    | none => (Response.renderLogin true, sess, db)
  else
    (Response.renderLogin false, sess, db)

/-- View `logout_view(request)`: end the session unconditionally and redirect
to the homepage. -/
def logout_view (_sess : Option Nat) (db : DB) : Response × Option Nat × DB :=
  (Response.redirect "allo_aide:home", none, db)

/-- View `create_new_skill(request)`: on POST with a valid `SkillForm`, save a
new skill with its owner bound server-side to `request.user`
(`form.save(commit=False)`; `new_skill.user = request.user`; `save()`), then
redirect; otherwise render the form. -/
def create_new_skill (user : Option Nat) (method : String)
    (form : Option SkillFormData) (db : DB) : Response × DB :=
  if method == "POST" then
    match form with
    | some data =>
      let new_skill : Skill := { id := db.next_id, user := user, name := data.name }
      (Response.redirect "allo_aide:home_user",
        { db with skills := db.skills ++ [new_skill], next_id := db.next_id + 1 })
    | none => (Response.renderSkillForm true, db)
  else
    (Response.renderSkillForm false, db)

/-- View `create_new_request(request)`: on POST with a valid
`HelpRequestForm`, `form.save()` stores the record exactly as submitted
(no server-side owner binding), then redirects; otherwise renders the form. -/
def create_new_request (method : String) (form : Option HelpRequestFormData)
    (db : DB) : Response × DB :=
  if method == "POST" then
    match form with
    | some data =>
      let new_hr : HelpRequest :=
        { id := db.next_id, user := data.user, description := data.description }
      (Response.redirect "allo_aide:home_user",
        { db with help_requests := db.help_requests ++ [new_hr],
                  next_id := db.next_id + 1 })
    | none => (Response.renderRequestForm true, db)
  else
    (Response.renderRequestForm false, db)

/-- View `create_new_proposition(request)`: on POST with a valid
`TimeSlotForm`, `form.save()` stores the slot as submitted (owner from the
form, `is_available` initialised true per the data model), then redirects;
otherwise renders the form. -/
def create_new_proposition (method : String) (form : Option TimeSlotFormData)
    (db : DB) : Response × DB :=
  if method == "POST" then
    match form with
    | some data =>
      let new_slot : TimeSlot :=
        { id := db.next_id, user := data.user, skill := data.skill,
          date := data.date, is_available := true }
      (Response.redirect "allo_aide:home_user",
        { db with time_slots := db.time_slots ++ [new_slot],
                  next_id := db.next_id + 1 })
    | none => (Response.renderPropositionForm true, db)
  else
    (Response.renderPropositionForm false, db)

/-- View `find_slots(request, skill_id, date)`: `get_object_or_404(Skill)`,
strict `%Y-%m-%d` parse with an inline error message and empty result on
failure, else the available slots of that skill on that date. -/
def find_slots (skill_id : Nat) (date : String) (db : DB) : Response × DB :=
  match db.skills.find? (fun s => s.id == skill_id) with
  | none => (Response.notFound, db)
  | some skill =>
    match strptimeYMD date with
    | none =>
      (Response.renderFindSlots [] skill none
        (some "Invalid date format. Please enter a date in YYYY-MM-DD format."), db)
    | some date_obj =>
      (Response.renderFindSlots
        (db.time_slots.filter
          (fun t => t.skill == skill.id && t.date == date_obj && t.is_available))
        skill (some date_obj) none, db)

/-- View `reserve_slot(request, slot_id)` (`@login_required`):
`get_object_or_404(TimeSlot)`; if available, create a Reservation for the
current user, flip `is_available` to false and redirect to history;
otherwise render the already-reserved error page. -/
def reserve_slot (user : Option Nat) (slot_id : Nat) (db : DB) : Response × DB :=
  match user with
  | none => (Response.redirectToLogin, db)
  | some u =>
    match db.time_slots.find? (fun t => t.id == slot_id) with
    | none => (Response.notFound, db)
    | some slot =>
      if slot.is_available then
        let reservation : Reservation :=
          { id := db.next_id, time_slot := slot.id, user := some u,
            created_available := slot.is_available }
        let db1 := { db with reservations := db.reservations ++ [reservation],
                             next_id := db.next_id + 1 }
        let saved := db1.time_slots.map (fun t =>
          if t.id == slot.id then { t with is_available := false } else t)
        let db2 := { db1 with time_slots := saved }
        (Response.redirect "allo_aide:history", db2)
      else
        (Response.renderError "Ce créneau est déjà réservé.", db)

/-- Join performed by `select_related('time_slot', 'time_slot__skill')`:
a reservation together with its slot and that slot's skill. -/
def joinReservation (db : DB) (r : Reservation) :
    Reservation × Option TimeSlot × Option Skill :=
  let slot := db.time_slots.find? (fun t => t.id == r.time_slot)
  (r, slot, slot.bind (fun ts => db.skills.find? (fun sk => sk.id == ts.skill)))

/-- View `history(request)` (`@login_required`): the current user's
reservations, each joined with slot and skill; read-only. -/
def history (user : Option Nat) (db : DB) : Response × DB :=
  match user with
  | none => (Response.redirectToLogin, db)
  | some u =>
    (Response.renderHistory
      ((db.reservations.filter (fun r => r.user == some u)).map (joinReservation db)),
      db)

/-- One inbound HTTP request, carrying its method string, the per-request
principal where the view reads `request.user`, and the (already
framework-validated) form payloads. -/
inductive Request where
  | homeR (method : String)
  | homeUserR (method : String) (user : Option Nat)
  | loginR (method : String) (sess : Option Nat)
      (creds : Option (String × String)) (auth_result : Option Nat)
  | logoutR (method : String) (sess : Option Nat)
  | createSkillR (method : String) (user : Option Nat) (form : Option SkillFormData)
  | createRequestR (method : String) (form : Option HelpRequestFormData)
  | createPropositionR (method : String) (form : Option TimeSlotFormData)
  | findSlotsR (method : String) (skill_id : Nat) (date : String)
  | reserveR (method : String) (user : Option Nat) (slot_id : Nat)
  | historyR (method : String) (user : Option Nat)
deriving DecidableEq, Repr

/-- Route one request to its handler.  Views that never read
`request.method` (everything except login and the three create views)
receive any method unchanged, exactly as Django routes them. -/
def handle (r : Request) (db : DB) : Response × DB :=
  match r with
  | .homeR _ => home db
  | .homeUserR _ user => home_user user db
  | .loginR method sess creds auth_result =>
    ((login_view sess method creds auth_result db).1,
     (login_view sess method creds auth_result db).2.2)
  | .logoutR _ sess =>
    ((logout_view sess db).1, (logout_view sess db).2.2)
  | .createSkillR method user form => create_new_skill user method form db
  | .createRequestR method form => create_new_request method form db
  | .createPropositionR method form => create_new_proposition method form db
  | .findSlotsR _ skill_id date => find_slots skill_id date db
  | .reserveR _ user slot_id => reserve_slot user slot_id db
  | .historyR _ user => history user db

/-- Successor store of one request. -/
def stepDB (r : Request) (db : DB) : DB := (handle r db).2

/-- Store after a sequence of requests. -/
def execTrace (rs : List Request) (db : DB) : DB :=
  rs.foldl (fun d r => stepDB r d) db

/-- Number of reservations referencing the slot with primary key `tid`. -/
def resCount (rs : List Reservation) (tid : Nat) : Nat :=
  (rs.filter (fun r => r.time_slot == tid)).length

/-- Store well-formedness maintained by the database layer: primary keys are
below the fresh-key counter and every Reservation's foreign key resolves to
an existing TimeSlot. -/
def DB.wf (db : DB) : Prop :=
  (∀ t ∈ db.time_slots, t.id < db.next_id) ∧
  (∀ r ∈ db.reservations, ∃ t ∈ db.time_slots, t.id = r.time_slot)

instance (db : DB) : Decidable db.wf := by
  unfold DB.wf; infer_instance

/-- The invariant exactly as the spec states it: an unavailable slot has
exactly one reservation referencing it, and every reservation was created
when its slot was available. -/
def InvClaimed (db : DB) : Prop :=
  (∀ t ∈ db.time_slots, t.is_available = false →
    resCount db.reservations t.id = 1) ∧
  (∀ r ∈ db.reservations, r.created_available = true)

instance (db : DB) : Decidable (InvClaimed db) := by
  unfold InvClaimed; infer_instance

/-- The inductive strengthening: an available slot has no reservation
referencing it, an unavailable one exactly one. -/
def InvStrong (db : DB) : Prop :=
  (∀ t ∈ db.time_slots,
    resCount db.reservations t.id = if t.is_available then 0 else 1) ∧
  (∀ r ∈ db.reservations, r.created_available = true)

instance (db : DB) : Decidable (InvStrong db) := by
  unfold InvStrong; infer_instance

/-! ### Helper lemmas -/

theorem invStrong_invClaimed (db : DB) (h : InvStrong db) : InvClaimed db := by
  refine ⟨fun t ht hun => ?_, h.2⟩
  have := h.1 t ht
  rw [hun] at this
  simpa using this

theorem resCount_append (rs : List Reservation) (r : Reservation) (tid : Nat) :
    resCount (rs ++ [r]) tid =
      resCount rs tid + (if r.time_slot = tid then 1 else 0) := by
  unfold resCount
  rw [List.filter_append, List.length_append]
  by_cases h : r.time_slot = tid <;> simp [h]

/-- Reservations never reference the fresh key, so its count is zero. -/
theorem resCount_fresh (db : DB) (hwf : db.wf) :
    resCount db.reservations db.next_id = 0 := by
  unfold resCount
  rw [List.length_eq_zero]
  rw [List.filter_eq_nil_iff]
  intro r hr
  obtain ⟨t, ht, hid⟩ := hwf.2 r hr
  have hlt := hwf.1 t ht
  simp only [beq_iff_eq]
  omega

/-- The full equation of the successful reservation branch. -/
theorem reserve_slot_eq (db : DB) (u slot_id : Nat) (slot : TimeSlot)
    (hfind : db.time_slots.find? (fun t => t.id == slot_id) = some slot)
    (havail : slot.is_available = true) :
    reserve_slot (some u) slot_id db =
      (Response.redirect "allo_aide:history",
        { db with
            reservations := db.reservations ++
              [{ id := db.next_id, time_slot := slot.id, user := some u,
                 created_available := slot.is_available }],
            time_slots := db.time_slots.map (fun t =>
              if t.id == slot.id then { t with is_available := false } else t),
            next_id := db.next_id + 1 }) := by
  unfold reserve_slot
  rw [hfind]
  simp [havail]

theorem find?_id_eq {l : List TimeSlot} {i : Nat} {slot : TimeSlot}
    (hfind : l.find? (fun t => t.id == i) = some slot) : slot.id = i := by
  have := List.find?_some hfind
  simpa using this

theorem find?_mem {l : List TimeSlot} {i : Nat} {slot : TimeSlot}
    (hfind : l.find? (fun t => t.id == i) = some slot) : slot ∈ l :=
  List.mem_of_find?_eq_some hfind

/-- find_slots never writes the store. -/
theorem find_slots_db_eq (skill_id : Nat) (date : String) (db : DB) :
    (find_slots skill_id date db).2 = db := by
  unfold find_slots
  cases db.skills.find? (fun s => s.id == skill_id) with
  | none => rfl
  | some sk =>
    cases strptimeYMD date with
    | none => rfl
    | some d => rfl

/-- login_view never writes the store. -/
theorem login_view_db_eq (sess : Option Nat) (method : String)
    (creds : Option (String × String)) (auth_result : Option Nat) (db : DB) :
    (login_view sess method creds auth_result db).2.2 = db := by
  unfold login_view
  split
  · cases creds with
    | none => rfl
    | some c => cases auth_result with
      | none => rfl
      | some uid => rfl
  · rfl

/-- Appending rows to tables other than time_slots and reservations, while
bumping the key counter, preserves well-formedness and the invariant. -/
theorem wf_inv_extend (db : DB) (sks : List Skill) (hrs : List HelpRequest)
    (hwf : db.wf) (hinv : InvStrong db) :
    DB.wf { db with skills := sks, help_requests := hrs,
                    next_id := db.next_id + 1 } ∧
    InvStrong { db with skills := sks, help_requests := hrs,
                        next_id := db.next_id + 1 } :=
  ⟨⟨fun t ht => Nat.lt_succ_of_lt (hwf.1 t ht), hwf.2⟩, hinv⟩

/-- Inserting a fresh available slot preserves well-formedness and the
invariant. -/
theorem wf_inv_addSlot (db : DB) (u : Option Nat) (sk : Nat) (d : PyDate)
    (hwf : db.wf) (hinv : InvStrong db) :
    DB.wf { db with
              time_slots := db.time_slots ++
                [{ id := db.next_id, user := u, skill := sk, date := d,
                   is_available := true }],
              next_id := db.next_id + 1 } ∧
    InvStrong { db with
                  time_slots := db.time_slots ++
                    [{ id := db.next_id, user := u, skill := sk, date := d,
                       is_available := true }],
                  next_id := db.next_id + 1 } := by
  refine ⟨⟨fun t ht => ?_, fun r hr => ?_⟩, fun t ht => ?_, hinv.2⟩
  · rcases List.mem_append.1 ht with h | h
    · exact Nat.lt_succ_of_lt (hwf.1 t h)
    · simp only [List.mem_singleton] at h
      subst h
      exact Nat.lt_succ_self _
  · obtain ⟨t, ht, hid⟩ := hwf.2 r hr
    exact ⟨t, List.mem_append_left _ ht, hid⟩
  · rcases List.mem_append.1 ht with h | h
    · exact hinv.1 t h
    · simp only [List.mem_singleton] at h
      subst h
      simpa using resCount_fresh db hwf

/-- The successful reservation branch preserves well-formedness and the
invariant. -/
theorem wf_inv_reserve (db : DB) (u slot_id : Nat) (slot : TimeSlot)
    (hfind : db.time_slots.find? (fun t => t.id == slot_id) = some slot)
    (havail : slot.is_available = true)
    (hwf : db.wf) (hinv : InvStrong db) :
    (reserve_slot (some u) slot_id db).2.wf ∧
    InvStrong (reserve_slot (some u) slot_id db).2 := by
  rw [reserve_slot_eq db u slot_id slot hfind havail]
  have hslot_mem : slot ∈ db.time_slots := find?_mem hfind
  have hid_map : ∀ t : TimeSlot,
      ((if t.id == slot.id then { t with is_available := false } else t) :
        TimeSlot).id = t.id := by
    intro t
    by_cases h : (t.id == slot.id) = true <;> simp [h]
  have hcnt_slot : resCount db.reservations slot.id = 0 := by
    have := hinv.1 slot hslot_mem
    rw [havail] at this
    simpa using this
  refine ⟨⟨fun t ht => ?_, fun r hr => ?_⟩, fun t ht => ?_, fun r hr => ?_⟩
  · rcases List.mem_map.1 ht with ⟨t0, ht0, rfl⟩
    rw [hid_map t0]
    exact Nat.lt_succ_of_lt (hwf.1 t0 ht0)
  · rcases List.mem_append.1 hr with h | h
    · obtain ⟨t, ht, hid⟩ := hwf.2 r h
      refine ⟨_, List.mem_map_of_mem _ ht, ?_⟩
      rw [hid_map t]
      exact hid
    · simp only [List.mem_singleton] at h
      subst h
      refine ⟨_, List.mem_map_of_mem _ hslot_mem, ?_⟩
      rw [hid_map slot]
  · rcases List.mem_map.1 ht with ⟨t0, ht0, rfl⟩
    rw [resCount_append]
    have hcnt0 := hinv.1 t0 ht0
    by_cases h : (t0.id == slot.id) = true
    · have hid0 : t0.id = slot.id := by simpa using h
      have ht0avail : t0.is_available = true := by
        rw [hid0, hcnt_slot] at hcnt0
        cases hb : t0.is_available with
        | true => rfl
        | false => rw [hb] at hcnt0; simp at hcnt0
      simp [h, hid0, hcnt_slot]
    · have hne : slot.id ≠ t0.id := by
        intro he
        exact h (by simp [he.symm])
      simp [h, hne, hcnt0]
  · rcases List.mem_append.1 hr with h | h
    · exact hinv.2 r h
    · simp only [List.mem_singleton] at h
      subst h
      exact havail

/-- One request preserves well-formedness and the strengthened invariant. -/
theorem stepDB_preserves (r : Request) (db : DB)
    (hwf : db.wf) (hinv : InvStrong db) :
    (stepDB r db).wf ∧ InvStrong (stepDB r db) := by
  cases r with
  | homeR m => exact ⟨hwf, hinv⟩
  | homeUserR m u => exact ⟨hwf, hinv⟩
  | loginR m sess creds ar =>
    have h : stepDB (.loginR m sess creds ar) db = db :=
      login_view_db_eq sess m creds ar db
    rw [h]; exact ⟨hwf, hinv⟩
  | logoutR m sess => exact ⟨hwf, hinv⟩
  | createSkillR m u form =>
    simp only [stepDB, handle, create_new_skill]
    split
    · cases form with
      | some data =>
        exact wf_inv_extend db
          (db.skills ++ [{ id := db.next_id, user := u, name := data.name }])
          db.help_requests hwf hinv
      | none => exact ⟨hwf, hinv⟩
    · exact ⟨hwf, hinv⟩
  | createRequestR m form =>
    simp only [stepDB, handle, create_new_request]
    split
    · cases form with
      | some data =>
        exact wf_inv_extend db db.skills
          (db.help_requests ++
            [{ id := db.next_id, user := data.user,
               description := data.description }]) hwf hinv
      | none => exact ⟨hwf, hinv⟩
    · exact ⟨hwf, hinv⟩
  | createPropositionR m form =>
    simp only [stepDB, handle, create_new_proposition]
    split
    · cases form with
      | some data => exact wf_inv_addSlot db data.user data.skill data.date hwf hinv
      | none => exact ⟨hwf, hinv⟩
    · exact ⟨hwf, hinv⟩
  | findSlotsR m sid d =>
    have h : stepDB (.findSlotsR m sid d) db = db := find_slots_db_eq sid d db
    rw [h]; exact ⟨hwf, hinv⟩
  | reserveR m u sid =>
    cases u with
    | none => exact ⟨hwf, hinv⟩
    | some uu =>
      rcases hfind : db.time_slots.find? (fun t => t.id == sid) with _ | slot
      · have h : stepDB (.reserveR m (some uu) sid) db = db := by
          simp only [stepDB, handle, reserve_slot, hfind]
        rw [h]; exact ⟨hwf, hinv⟩
      · by_cases hav : slot.is_available = true
        · exact wf_inv_reserve db uu sid slot hfind hav hwf hinv
        · have hav' : slot.is_available = false := by
            cases hb : slot.is_available with
            | true => exact absurd hb hav
            | false => rfl
          have h : stepDB (.reserveR m (some uu) sid) db = db := by
            simp only [stepDB, handle, reserve_slot, hfind, hav']
            rfl
          rw [h]; exact ⟨hwf, hinv⟩
  | historyR m u =>
    cases u with
    | none => exact ⟨hwf, hinv⟩
    | some uu => exact ⟨hwf, hinv⟩

/-- A whole trace preserves well-formedness and the strengthened invariant. -/
theorem execTrace_preserves (rs : List Request) (db : DB)
    (hwf : db.wf) (hinv : InvStrong db) :
    (execTrace rs db).wf ∧ InvStrong (execTrace rs db) := by
  induction rs generalizing db with
  | nil => exact ⟨hwf, hinv⟩
  | cons r rest ih =>
    have h := stepDB_preserves r db hwf hinv
    exact ih (stepDB r db) h.1 h.2

/-! ### Sample stores used by the witnesses -/

/-- Empty store. -/
def dbEmpty : DB := { skills := [], help_requests := [], time_slots := [],
                      reservations := [], next_id := 0 }

/-- A skill owned by user 1. -/
def skillW : Skill := { id := 0, user := some 1, name := "piano" }

/-- An available slot for that skill. -/
def slotW : TimeSlot :=
  { id := 1, user := some 1, skill := 0, date := ⟨2024, 1, 1⟩, is_available := true }

/-- Store with one skill and one available slot. -/
def dbW : DB :=
  { skills := [skillW], help_requests := [], time_slots := [slotW],
    reservations := [], next_id := 2 }

/-- Store in which the slot is already reserved. -/
def dbReserved : DB :=
  { skills := [skillW], help_requests := [],
    time_slots := [{ slotW with is_available := false }],
    reservations := [{ id := 2, time_slot := 1, user := some 5,
                       created_available := true }],
    next_id := 3 }

/-- Store satisfying the claimed invariant yet holding a reservation on a
still-available slot: the configuration on which the claimed invariant is
not preserved. -/
def dbCex : DB :=
  { skills := [], help_requests := [],
    time_slots := [{ id := 0, user := none, skill := 0, date := ⟨2024, 1, 1⟩,
                     is_available := true }],
    reservations := [{ id := 0, time_slot := 0, user := some 3,
                       created_available := true }],
    next_id := 1 }

/-! ### Claims -/

/-- C1: an authenticated reserve_slot request on an existing available slot
returns a redirect to the History view, appends exactly one new Reservation
linking that slot to the current user, flips the slot's is_available flag
to false, and touches no other table. -/
theorem reserve_slot_available_ok (db : DB) (u slot_id : Nat) (slot : TimeSlot)
    (hfind : db.time_slots.find? (fun t => t.id == slot_id) = some slot)
    (havail : slot.is_available = true) :
    (reserve_slot (some u) slot_id db).1 = Response.redirect "allo_aide:history" ∧
    (∃ res : Reservation,
      (reserve_slot (some u) slot_id db).2.reservations =
        db.reservations ++ [res] ∧
      res.time_slot = slot_id ∧ res.user = some u) ∧
    (∀ t ∈ (reserve_slot (some u) slot_id db).2.time_slots,
      (t.id = slot_id → t.is_available = false) ∧
      (t.id ≠ slot_id → t ∈ db.time_slots)) ∧
    (reserve_slot (some u) slot_id db).2.skills = db.skills ∧
    (reserve_slot (some u) slot_id db).2.help_requests = db.help_requests := by
  have heq := reserve_slot_eq db u slot_id slot hfind havail
  have hid : slot.id = slot_id := find?_id_eq hfind
  rw [heq]
  refine ⟨rfl, ⟨_, rfl, hid, rfl⟩, ?_, rfl, rfl⟩
  intro t ht
  rcases List.mem_map.1 ht with ⟨t0, ht0, rfl⟩
  by_cases hb : (t0.id == slot.id) = true
  · have h0 : t0.id = slot.id := by simpa using hb
    rw [if_pos hb]
    exact ⟨fun _ => rfl, fun hne => absurd (h0.trans hid) hne⟩
  · have h0 : t0.id ≠ slot.id := by simpa using hb
    rw [if_neg hb]
    exact ⟨fun he => absurd (he.trans hid.symm) h0, fun _ => ht0⟩

/-- Witness for C1 on a concrete store. -/
theorem reserve_slot_available_ok_witness :
    (dbW.time_slots.find? (fun t => t.id == 1) = some slotW ∧
      slotW.is_available = true) ∧
    (reserve_slot (some 5) 1 dbW).1 = Response.redirect "allo_aide:history" :=
  ⟨⟨by decide, by decide⟩,
    (reserve_slot_available_ok dbW 5 1 slotW (by decide) (by decide)).1⟩

/-- C2: an authenticated reserve_slot request on an existing slot whose
is_available flag is false renders the already-reserved error page and
leaves the whole store unchanged. -/
theorem reserve_slot_conflict_ok (db : DB) (u slot_id : Nat) (slot : TimeSlot)
    (hfind : db.time_slots.find? (fun t => t.id == slot_id) = some slot)
    (hun : slot.is_available = false) :
    reserve_slot (some u) slot_id db =
      (Response.renderError "Ce créneau est déjà réservé.", db) := by
  unfold reserve_slot
  rw [hfind]
  simp [hun]

/-- Witness for C2 on a concrete store. -/
theorem reserve_slot_conflict_ok_witness :
    (dbReserved.time_slots.find? (fun t => t.id == 1) =
        some { slotW with is_available := false } ∧
      ({ slotW with is_available := false } : TimeSlot).is_available = false) ∧
    reserve_slot (some 5) 1 dbReserved =
      (Response.renderError "Ce créneau est déjà réservé.", dbReserved) :=
  ⟨⟨by decide, by decide⟩,
    reserve_slot_conflict_ok dbReserved 5 1 { slotW with is_available := false }
      (by decide) (by decide)⟩

/-- C3 (counterexample): the invariant exactly as claimed is not preserved
by the handlers.  A store holding one available slot with one reservation
already referencing it satisfies the claimed invariant and is well-formed,
yet a single reserve_slot request yields an unavailable slot referenced by
two reservations. -/
theorem invariant_not_inductive_cex :
    dbCex.wf ∧ InvClaimed dbCex ∧
    ¬ InvClaimed (execTrace [Request.reserveR "GET" (some 7) 0] dbCex) := by
  decide

/-- C3 (amended): starting from a well-formed store in which every available
slot has no reservation referencing it and every unavailable slot exactly
one, every store reachable by any sequence of the ten handlers satisfies
the claimed invariant: unavailable slots have exactly one reservation and
every reservation was created when its slot was available. -/
theorem invariant_reachable (db : DB) (rs : List Request)
    (hwf : db.wf) (hinv : InvStrong db) :
    InvClaimed (execTrace rs db) :=
  invStrong_invClaimed _ (execTrace_preserves rs db hwf hinv).2

/-- Witness for the amended C3 on a concrete store and trace. -/
theorem invariant_reachable_witness :
    (dbW.wf ∧ InvStrong dbW) ∧
    InvClaimed (execTrace [Request.reserveR "GET" (some 5) 1] dbW) :=
  ⟨⟨by decide, by decide⟩,
    invariant_reachable dbW [Request.reserveR "GET" (some 5) 1]
      (by decide) (by decide)⟩

/-- C4 (code behaviour at the failing input): create_new_skill binds the
new Skill's owner to the session principal (user 1) even though the form
claims user 2, but create_new_proposition saves the TimeSlot exactly as
submitted, so the slot's owner is the form's user 2 — the session principal
is not even consulted by that handler. -/
theorem owner_binding_bug_eval :
    ((create_new_skill (some 1) "POST"
        (some { name := "jardinage", claimed_user := some 2 })
        dbEmpty).2.skills.map (fun s => s.user) = [some 1]) ∧
    ((create_new_proposition "POST"
        (some { user := some 2, skill := 0, date := ⟨2024, 1, 1⟩ })
        dbEmpty).2.time_slots.map (fun t => t.user) = [some 2]) := by
  decide

/-- C5: find_slots on an existing skill degrades gracefully: an unparsable
date yields a rendered page with a non-empty error message and an empty
slot list, while a parsable date yields no error message and exactly the
available slots of that skill on that date; the store is never written. -/
theorem find_slots_ok (db : DB) (skill_id : Nat) (sk : Skill) (date : String)
    (hfind : db.skills.find? (fun s => s.id == skill_id) = some sk) :
    (strptimeYMD date = none →
      ∃ msg : String, msg ≠ "" ∧
        find_slots skill_id date db =
          (Response.renderFindSlots [] sk none (some msg), db)) ∧
    (∀ d, strptimeYMD date = some d →
      ∃ slots, find_slots skill_id date db =
          (Response.renderFindSlots slots sk (some d) none, db) ∧
        ∀ t, t ∈ slots ↔
          t ∈ db.time_slots ∧ t.skill = sk.id ∧ t.date = d ∧
            t.is_available = true) := by
  constructor
  · intro hparse
    refine ⟨"Invalid date format. Please enter a date in YYYY-MM-DD format.",
      by decide, ?_⟩
    unfold find_slots
    rw [hfind, hparse]
  · intro d hparse
    refine ⟨db.time_slots.filter
      (fun t => t.skill == sk.id && t.date == d && t.is_available), ?_, ?_⟩
    · unfold find_slots
      rw [hfind, hparse]
    · intro t
      simp only [List.mem_filter, Bool.and_eq_true, beq_iff_eq]
      tauto

/-- Witness for C5 on a concrete store and a malformed date. -/
theorem find_slots_ok_witness :
    dbW.skills.find? (fun s => s.id == 0) = some skillW ∧
    (∃ msg : String, msg ≠ "" ∧
      find_slots 0 "not-a-date" dbW =
        (Response.renderFindSlots [] skillW none (some msg), dbW)) :=
  ⟨by decide, (find_slots_ok dbW 0 skillW "not-a-date" (by decide)).1 (by decide)⟩

/-- C6: reserving a nonexistent slot id returns the not-found response with
the store untouched, and find_slots on a nonexistent skill id likewise
returns not-found with the store untouched. -/
theorem not_found_ok (db : DB) (u slot_id skill_id : Nat) (date : String)
    (h1 : db.time_slots.find? (fun t => t.id == slot_id) = none)
    (h2 : db.skills.find? (fun s => s.id == skill_id) = none) :
    reserve_slot (some u) slot_id db = (Response.notFound, db) ∧
    find_slots skill_id date db = (Response.notFound, db) := by
  constructor
  · unfold reserve_slot
    rw [h1]
  · unfold find_slots
    rw [h2]

/-- Witness for C6 on the empty store. -/
theorem not_found_ok_witness :
    (dbEmpty.time_slots.find? (fun t => t.id == 0) = none ∧
      dbEmpty.skills.find? (fun s => s.id == 0) = none) ∧
    reserve_slot (some 1) 0 dbEmpty = (Response.notFound, dbEmpty) :=
  ⟨⟨by decide, by decide⟩,
    (not_found_ok dbEmpty 1 0 0 "2024-01-01" (by decide) (by decide)).1⟩

/-- C7: logout_view unconditionally clears the session and redirects to the
public home page, and an unauthenticated request to reserve_slot or history
is redirected to the login view with the store untouched — reserve_slot
never mutates and history never renders for an anonymous caller. -/
theorem logout_guard_ok (sess : Option Nat) (db : DB) (slot_id : Nat) :
    logout_view sess db = (Response.redirect "allo_aide:home", none, db) ∧
    reserve_slot none slot_id db = (Response.redirectToLogin, db) ∧
    history none db = (Response.redirectToLogin, db) :=
  ⟨rfl, rfl, rfl⟩

/-- C8: history renders exactly the current principal's reservations, each
joined with its slot and that slot's skill, renders the empty list for a
user with none, and never writes the store. -/
theorem history_ok (u : Nat) (db : DB) :
    ∃ l, history (some u) db = (Response.renderHistory l, db) ∧
      (∀ p, p ∈ l ↔ ∃ r ∈ db.reservations, r.user = some u ∧
          p = (r, db.time_slots.find? (fun t => t.id == r.time_slot),
               (db.time_slots.find? (fun t => t.id == r.time_slot)).bind
                 (fun ts => db.skills.find? (fun sk2 => sk2.id == ts.skill)))) ∧
      ((∀ r ∈ db.reservations, r.user ≠ some u) → l = []) := by
  refine ⟨_, rfl, ?_, ?_⟩
  · intro p
    simp only [List.mem_map, List.mem_filter]
    constructor
    · rintro ⟨r, ⟨hr, hu⟩, rfl⟩
      exact ⟨r, hr, by simpa using hu, rfl⟩
    · rintro ⟨r, hr, hu, rfl⟩
      exact ⟨r, ⟨hr, by simpa using hu⟩, rfl⟩
  · intro hnone
    have hfil : db.reservations.filter (fun r => r.user == some u) = [] := by
      rw [List.filter_eq_nil_iff]
      intro r hr
      simpa using hnone r hr
    rw [hfil]
    rfl

/-- C9: home always succeeds for any caller, rendering all skills and
exactly the available slots, without writing the store. -/
theorem home_ok (db : DB) :
    ∃ ts, home db = (Response.renderHome db.skills ts, db) ∧
      ∀ t, t ∈ ts ↔ t ∈ db.time_slots ∧ t.is_available = true := by
  refine ⟨_, rfl, fun t => ?_⟩
  simp [List.mem_filter]

/-- C10: reserve_slot mutates regardless of the HTTP method — even a GET on
an available slot creates the reservation and flips the flag — while the
three creation handlers leave the store untouched and render an empty form
on any non-POST method. -/
theorem method_handling_ok (db : DB) (u slot_id : Nat) (slot : TimeSlot)
    (hfind : db.time_slots.find? (fun t => t.id == slot_id) = some slot)
    (havail : slot.is_available = true) :
    (∀ method : String,
      (handle (Request.reserveR method (some u) slot_id) db).1 =
        Response.redirect "allo_aide:history" ∧
      (∃ res : Reservation,
        (handle (Request.reserveR method (some u) slot_id) db).2.reservations =
          db.reservations ++ [res]) ∧
      (∀ t ∈ (handle (Request.reserveR method (some u) slot_id) db).2.time_slots,
        t.id = slot_id → t.is_available = false)) ∧
    (∀ method : String, method ≠ "POST" →
      (∀ user form, create_new_skill user method form db =
        (Response.renderSkillForm false, db)) ∧
      (∀ form, create_new_request method form db =
        (Response.renderRequestForm false, db)) ∧
      (∀ form, create_new_proposition method form db =
        (Response.renderPropositionForm false, db))) := by
  constructor
  · intro method
    have heq := reserve_slot_eq db u slot_id slot hfind havail
    have hid : slot.id = slot_id := find?_id_eq hfind
    rw [show handle (Request.reserveR method (some u) slot_id) db =
          reserve_slot (some u) slot_id db from rfl, heq]
    refine ⟨rfl, ⟨_, rfl⟩, ?_⟩
    intro t ht h
    rcases List.mem_map.1 ht with ⟨t0, ht0, rfl⟩
    by_cases hb : (t0.id == slot.id) = true
    · rw [if_pos hb]
    · have h0 : t0.id ≠ slot.id := by simpa using hb
      rw [if_neg hb] at h
      exact absurd (h.trans hid.symm) h0
  · intro method hm
    have hb : (method == "POST") = false := beq_eq_false_iff_ne.mpr hm
    refine ⟨fun user form => ?_, fun form => ?_, fun form => ?_⟩ <;>
      simp [create_new_skill, create_new_request, create_new_proposition, hb]

/-- Witness for C10: the concrete mutation happens on a GET request. -/
theorem method_handling_ok_witness :
    (dbW.time_slots.find? (fun t => t.id == 1) = some slotW ∧
      slotW.is_available = true) ∧
    (handle (Request.reserveR "GET" (some 5) 1) dbW).1 =
      Response.redirect "allo_aide:history" :=
  ⟨⟨by decide, by decide⟩,
    ((method_handling_ok dbW 5 1 slotW (by decide) (by decide)).1 "GET").1⟩

end AlloAide
